import Mathlib

/-!
# Verification of the workstream execution core (`internal/execute/sm/final.go`)

Shallow embedding of the plan-execution state machine of
`element-of-surprise/workstream`.  The source file `final.go` holds two
machines:

* `finalStates` — the finalizer that inspects the finished plan tree and sets
  the terminal status and failure reason (`start`, `planChecks`, `blocks`,
  `end`, `examineChecks`);
* `States` — the executor (`Start`, `PlanPreChecks`, …, `BlockEnd`,
  `runPreChecks`, `runContChecks`, `runChecks`, `execSeq`, `runAction`,
  `isType`).

Statuses and failure reasons are the enumerations of `workflow` (part_003).
Go `error` values are modelled by `Option GoErr`, where a `GoErr` records the
message and which sentinel errors it wraps (`ErrInternalFailure`,
`exponential.ErrPermanent`).  Plugin request/response values (`any` in Go)
are modelled by `GoVal`, which records the dynamic type name used by
`reflect.TypeOf` and `%T`; the nil interface is `GoVal.nil`.

Storage writes (`store.Write`, `writer.Write`, …) always succeed in the model
(the source treats a failing write as fatal via `log.Fatalf`); timestamps are
not modelled, no claim mentions them.
-/

namespace Workstream

/-- Source `workflow.Status` (part_003): NotStarted=0, Started=100, Running=200,
Completed=300, Failed=400, Stopped=500. -/
inductive Status where
  | NotStarted
  | Started
  | Running
  | Completed
  | Failed
  | Stopped
deriving DecidableEq, Repr

/-- Source `Status.String()` (stringer output, part_001/part_003). -/
def Status.str : Status → String
  | .NotStarted => "NotStarted"
  | .Started => "Started"
  | .Running => "Running"
  | .Completed => "Completed"
  | .Failed => "Failed"
  | .Stopped => "Stopped"

/-- Source `workflow.FailureReason` (part_003): FRUnknown=0, FRPreCheck=100,
FRBlock=200, FRPostCheck=300, FRContCheck=400, FRStopped=500. -/
inductive FailureReason where
  | FRUnknown
  | FRPreCheck
  | FRBlock
  | FRPostCheck
  | FRContCheck
  | FRStopped
deriving DecidableEq, Repr

/-- A non-nil Go `error` value: its `Error()` message and which sentinel
errors it wraps (via `%w` / `errors.Is`). -/
structure GoErr where
  msg : String
  /-- Result of `errors.Is(err, ErrInternalFailure)`. -/
  wrapsInternal : Bool := false
  /-- Result of `errors.Is(err, exponential.ErrPermanent)`. -/
  wrapsPermanent : Bool := false
deriving DecidableEq, Repr

/-- A Go `any` (interface) value: either the nil interface or a value whose
dynamic type has the given name. -/
inductive GoVal where
  | nil
  | mk (typeName : String)
deriving DecidableEq, Repr

/-- Formatting verb `%T` of `fmt`: the dynamic type of an interface value; the nil
interface prints as `<nil>`. -/
def fmtT : GoVal → String
  | .nil => "<nil>"
  | .mk t => t

/-- Source `reflect.TypeOf`: `nil` for the nil interface, otherwise the dynamic
type. -/
def reflectTypeOf : GoVal → Option String
  | .nil => none
  | .mk t => some t

/-- Source `isType(a, b)` (final.go): `reflect.TypeOf(a) == reflect.TypeOf(b)`. -/
def isType (a b : GoVal) : Bool :=
  reflectTypeOf a = reflectTypeOf b

/-! ## The finalizer machine `finalStates`

The first segment of `final.go` (package `sm`, coercion era).  Its input is
the plan tree after execution: we keep exactly the fields the machine reads
and writes — the status of each of the three plan-level `Checks` nodes
(`none` models a nil `*workflow.Checks`), the status of every block, the
status of the plan itself and its failure reason. -/

/-- The slice of the plan tree that `finalStates` reads and writes. -/
structure FinalPlan where
  preChecks : Option Status
  contChecks : Option Status
  postChecks : Option Status
  blockStatuses : List Status
  planStatus : Status
  reason : FailureReason
deriving DecidableEq, Repr

/-- One item of the loop body of `finalStates.examineChecks`: `t` is the
display name of the check and `r` its failure reason (both set by the
`switch i`), `st` the status of the check.  Returns `none` to continue the
loop, or the `(reason, error)` pair the Go code returns. -/
def examineOne (t : String) (r : FailureReason) (st : Status) :
    Option (FailureReason × GoErr) :=
  match st with
  | .Completed => none
  | .Failed => some (r, { msg := t ++ " failure" })
  | st =>
      some (r, { msg := "plan End state reached with a " ++ t ++ " in " ++
                        st.str ++ " state, which is invalid",
                 wrapsInternal := true })

/-- The loop of `finalStates.examineChecks` over the three checks (a nil
check is skipped).  Returns `(FRUnknown, nil)` when nothing failed. -/
def examineChecksLoop :
    List (String × FailureReason × Option Status) →
    FailureReason × Option GoErr
  | [] => (.FRUnknown, none)
  | (_, _, none) :: rest => examineChecksLoop rest
  | (t, r, some st) :: rest =>
      match examineOne t r st with
      | none => examineChecksLoop rest
      | some (r, e) => (r, some e)

/-- Source `finalStates.examineChecks`, applied by `planChecks` to the array
of `plan.PreChecks`, `plan.ContChecks`, `plan.PostChecks` in that order. -/
def examineChecks (pre cont post : Option Status) :
    FailureReason × Option GoErr :=
  examineChecksLoop
    [("PreChecks", .FRPreCheck, pre),
     ("ContChecks", .FRContCheck, cont),
     ("PostChecks", .FRPostCheck, post)]

/-- Source `finalStates.planChecks`: on a check failure, set plan status Failed,
record the reason, and carry the error to the end of the machine; otherwise
continue to `finalStates.blocks`.  The `Bool` is `true` when the machine
continues (`req.Next = f.blocks`). -/
def finalPlanChecks (p : FinalPlan) : FinalPlan × Option GoErr × Bool :=
  match examineChecks p.preChecks p.contChecks p.postChecks with
  | (_, none) => (p, none, true)
  | (r, some e) =>
      ({ p with planStatus := .Failed, reason := r }, some e, false)

/-- The loop of `finalStates.blocks` over the block statuses: the first
non-`Completed` block fails the plan with reason `FRBlock`; a status other
than `Completed`/`Failed` wraps `ErrInternalFailure`. -/
def finalBlocksLoop (p : FinalPlan) :
    List Status → FinalPlan × Option GoErr × Bool
  | [] => (p, none, true)
  | st :: rest =>
      match st with
      | .Completed => finalBlocksLoop p rest
      | .Failed =>
          ({ p with planStatus := .Failed, reason := .FRBlock },
           some { msg := "block failure" }, false)
      | st =>
          ({ p with planStatus := .Failed, reason := .FRBlock },
           some { msg := "block End state reached in " ++ st.str ++
                         " state, which is invalid",
                  wrapsInternal := true }, false)

/-- Source `finalStates.blocks`. -/
def finalBlocks (p : FinalPlan) : FinalPlan × Option GoErr × Bool :=
  finalBlocksLoop p p.blockStatuses

/-- Source `finalStates.end`: records the plan as Completed. -/
def finalEnd (p : FinalPlan) : FinalPlan :=
  { p with planStatus := .Completed }

/-- The whole `finalStates` machine: `start → planChecks → blocks → end`.
`statemachine.Run` (gostdlib/ops) halts and surfaces `req.Err` as soon as a
state sets it, so a failure path stops with the mutated plan and the error
(`planChecks` also sets `req.Next = f.end`, but a request carrying an error
is not advanced further); otherwise `end` records Completed. -/
def finalRun (p : FinalPlan) : FinalPlan × Option GoErr :=
  match finalPlanChecks p with
  | (p, err, false) => (p, err)
  | (p, _, true) =>
      match finalBlocks p with
      | (p, err, false) => (p, err)
      | (p, _, true) => (finalEnd p, none)

/-! ## The executor machine `States` (second segment of final.go)

The executor mutates the plan tree and per-block runtime handles.  Plugin
behaviour is an oracle: a `PluginM` maps a request and an attempt index to
the `(resp, err)` pair `Execute` returns on that attempt.  Panics (nil
function call, nil pointer dereference) and a receive from a channel nobody
will ever feed are explicit outcomes. -/

/-- The ways an executor step can fail to produce a next state. -/
inductive PanicKind where
  | nilFunctionCall
  | nilPointerDeref
deriving DecidableEq, Repr

/-- Result of an executor step: a value, a runtime panic, or blocking
forever on a channel receive that can never be served. -/
inductive Outcome (α : Type) where
  | ok (val : α)
  | panic (k : PanicKind)
  | deadlock
deriving DecidableEq, Repr

/-- Sequencing of outcomes (a panic or deadlock aborts the rest of the
step). -/
def Outcome.bind {α β : Type} : Outcome α → (α → Outcome β) → Outcome β
  | .ok a, f => f a
  | .panic k, _ => .panic k
  | .deadlock, _ => .deadlock

/-- Source `workflow.Attempt`: the response and error of the plugin (times not
modelled). -/
structure Attempt where
  resp : GoVal
  err : Option GoErr
deriving DecidableEq, Repr

/-- Source `workflow.Action`, restricted to the fields the executor reads and
writes: the plugin name, the request, the retry budget (a Go `int`;
`Action.validate` clamps negatives to 0), the recorded attempts, and
`Internal.Status`. -/
structure Action where
  name : String
  pluginName : String
  req : GoVal
  retries : Int
  attempts : List Attempt
  status : Status
deriving DecidableEq, Repr

/-- A plugin: `Name()`, `Execute(ctx, req)` as a function of the request and
the attempt index, and the `Response()` prototype. -/
structure PluginM where
  name : String
  exec : GoVal → Nat → GoVal × Option GoErr
  response : GoVal

/-- The plugin registry. -/
structure Registry where
  plugins : List PluginM

/-- Source `registry.Plugin(name)`: nil (here `none`) when the plugin is not
registered. -/
def Registry.find (r : Registry) (n : String) : Option PluginM :=
  r.plugins.find? (fun p => p.name = n)

/-- The `Error()` text of `exponential.ErrPermanent` (gostdlib); the exact
wording lives outside this repository. -/
def permanentErrMsg : String := "permanent error"

/-- The sentinel `exponential.ErrPermanent` as an error value. -/
def errPermanent : GoErr := { msg := permanentErrMsg, wrapsPermanent := true }

/-- One execution of the retry-body of `States.runAction` past the length
guard, at attempt index `i`: the plugin call, then the response-type
validation.  The source clears `attempt.Resp` to nil **before** formatting
`"returned a type %T"` from `attempt.Resp`, so the message prints `<nil>`
in place of the offending dynamic type. -/
def runAttempt (p : PluginM) (req : GoVal) (i : Nat) : Attempt :=
  match p.exec req i with
  | (resp, some e) => { resp := resp, err := some e }
  | (resp, none) =>
      if isType resp p.response then { resp := resp, err := none }
      else
        { resp := GoVal.nil,
          err := some { msg := "plugin(" ++ p.name ++ ") returned a type " ++
                          fmtT GoVal.nil ++ " but expected " ++
                          fmtT p.response ++ ": " ++ permanentErrMsg,
                        wrapsPermanent := true } }

/-- The `backoff.Retry` loop of `States.runAction`: the body first returns
`exponential.ErrPermanent` when `len(action.Attempts) > action.Retries`
(without executing the plugin); otherwise it runs one attempt, appends it,
and its error decides: nil stops with success, a permanent error stops with
that error, a transient error retries. -/
def runActionLoop (p : PluginM) (a : Action) : Action × Option GoErr :=
  if (a.attempts.length : Int) > a.retries then
    (a, some errPermanent)
  else
    match (runAttempt p a.req a.attempts.length).err with
    | none =>
        ({ a with attempts := a.attempts ++ [runAttempt p a.req a.attempts.length] },
         none)
    | some e =>
        if e.wrapsPermanent then
          ({ a with attempts := a.attempts ++ [runAttempt p a.req a.attempts.length] },
           some e)
        else
          runActionLoop p
            { a with attempts := a.attempts ++ [runAttempt p a.req a.attempts.length] }
termination_by (a.retries + 1 - a.attempts.length).toNat
decreasing_by
  simp only [List.length_append, List.length_cons, List.length_nil]
  omega

/-- Source `States.runAction`: marks the action Running, resolves the plugin (a nil
plugin would be a nil dereference at `p.RetryPolicy()` — the validator is
supposed to rule this out), runs the retry loop, and records the terminal
status.  Storage writes succeed; timestamps unmodelled. -/
def runAction (reg : Registry) (a : Action) : Outcome (Action × Option GoErr) :=
  match reg.find a.pluginName with
  | none => .panic .nilPointerDeref
  | some p =>
      match runActionLoop p { a with status := Status.Running } with
      | (a', some e) => .ok ({ a' with status := Status.Failed }, some e)
      | (a', none) => .ok ({ a' with status := Status.Completed }, none)

/-- Body of the run loop of `States.runChecks`: each action runs through
`runAction` independently (in parallel in the source; the actions are
distinct, so list order is an equivalent schedule) and `g.Wait` returns an
aggregate error — modelled as the first error in list order (the source
leaves the choice among simultaneous failures unspecified). -/
def runChecksLoop (reg : Registry) :
    List Action → Outcome (List Action × Option GoErr)
  | [] => .ok ([], none)
  | a :: rest =>
      Outcome.bind (runAction reg a) (fun r =>
        Outcome.bind (runChecksLoop reg rest) (fun rs =>
          .ok (r.1 :: rs.1, r.2 <|> rs.2)))

/-- Source `States.runChecks`: a first pass marks every action Running and flushes,
then the actions run. -/
def runChecks (reg : Registry) (actions : List Action) :
    Outcome (List Action × Option GoErr) :=
  runChecksLoop reg (actions.map (fun a => { a with status := Status.Running }))

/-- A `workflow.Checks` node (`PreChecks`/`ContChecks`/`PostChecks`): the
executor reads only its action list (`Delay`/`Timeout` drive real time,
which the model leaves to the tick oracle). -/
structure Checks where
  actions : List Action
deriving DecidableEq, Repr

/-- Source `States.runPreChecks`: nothing to do when both nodes are nil; otherwise
the pre-check actions and a first pass of the cont-check actions run in
parallel (disjoint action sets — modelled pre first, then cont), `preFail`
records whether the pre-check branch failed, and the error of the group wait is
the first failure (choice among simultaneous failures unspecified in the
source). -/
def runPreChecks (reg : Registry) (pre cont : Option Checks) :
    Outcome (Option Checks × Option Checks × Bool × Option GoErr) :=
  match pre, cont with
  | none, none => .ok (none, none, false, none)
  | pre, cont =>
      Outcome.bind (runChecksOpt reg pre) (fun pr =>
        Outcome.bind (runChecksOpt reg cont) (fun cr =>
          .ok (pr.1, cr.1, pr.2.isSome, pr.2 <|> cr.2)))
where
  /-- Runs the actions of one optional checks node; a nil node is skipped. -/
  runChecksOpt (reg : Registry) (c : Option Checks) :
      Outcome (Option Checks × Option GoErr) :=
    match c with
    | none => .ok (none, none)
    | some cs =>
        Outcome.bind (runChecks reg cs.actions) (fun r =>
          .ok (some { cs with actions := r.1 }, r.2))

/-- Source `resetActions`: returns every action to its un-started state (status
NotStarted, cleared attempts; the cleared timestamps are unmodelled). -/
def resetActions (actions : List Action) : List Action :=
  actions.map (fun a => { a with status := Status.NotStarted, attempts := [] })

/-- Source `States.runContChecks`, driven by the finite list of ticks that fire
before the context is canceled; each tick carries the registry (the external
world) its check run sees.  A tick resets the actions, flushes, runs the
checks under a detached timeout context, and on a non-nil error sends it on
`resultCh` and returns; exhausting the tick list is the `ctx.Done()` arm.
The result is the final checks node, the values sent on `resultCh`, and the
number of times the channel was closed (`defer close(resultCh)`).  Storage
writes succeed (the source makes a failing write fatal). -/
def runContChecks (checks : Checks) (ticks : List Registry) :
    Outcome (Checks × List GoErr × Nat) :=
  match ticks with
  | [] => .ok (checks, [], 1)
  | reg :: rest =>
      Outcome.bind (runChecks reg (resetActions checks.actions)) (fun r =>
        match r with
        | (acts, some e) => .ok ({ checks with actions := acts }, [e], 1)
        | (acts, none) => runContChecks { checks with actions := acts } rest)

/-- Source `workflow.Sequence`: its ordered actions and `Internal.Status`. -/
structure Sequence where
  actions : List Action
  status : Status
deriving DecidableEq, Repr

/-- The action loop of `States.execSeq`: actions run strictly in order; the
first failure stops the loop (later actions untouched). -/
def execSeqLoop (reg : Registry) (done : List Action) :
    List Action → Outcome (List Action × Option GoErr)
  | [] => .ok (done, none)
  | a :: rest =>
      Outcome.bind (runAction reg a) (fun r =>
        match r with
        | (a', some e) => .ok (done ++ a' :: rest, some e)
        | (a', none) => execSeqLoop reg (done ++ [a']) rest)

/-- Source `States.execSeq`: marks the sequence Running, runs the actions in order,
and marks the sequence Failed on the first action failure (returning that
error) or Completed when all succeed. -/
def execSeq (reg : Registry) (s : Sequence) : Outcome (Sequence × Option GoErr) :=
  Outcome.bind (execSeqLoop reg [] s.actions) (fun r =>
    match r with
    | (acts, some e) =>
        .ok ({ s with actions := acts, status := Status.Failed }, some e)
    | (acts, none) =>
        .ok ({ s with actions := acts, status := Status.Completed }, none))

/-! ### Channels and block handles -/

/-- What the driver can observe of a cont-check result channel:
`openEmpty` — open, empty, and with no supervisor that will ever send or
close it (a blocking receive never returns); `pending e` — the supervisor
sent the error `e` (and then closed the channel); `closedEmpty` — closed
with nothing buffered (a receive yields the zero value, a nil error). -/
inductive ChanState where
  | openEmpty
  | pending (e : GoErr)
  | closedEmpty
deriving DecidableEq, Repr

/-- A blocking receive `<-ch`: `none` when the receive can never be served. -/
def chanRecv : ChanState → Option (Option GoErr × ChanState)
  | .openEmpty => none
  | .pending e => some (some e, .closedEmpty)
  | .closedEmpty => some (none, .closedEmpty)

/-- A non-blocking receive (one `select` case with a `default`): the outer
`Option` is `none` when the channel is not ready; a closed channel is always
ready and yields a nil error. -/
def chanTryRecv : ChanState → Option (Option GoErr) × ChanState
  | .openEmpty => (none, .openEmpty)
  | .pending e => (some (some e), .closedEmpty)
  | .closedEmpty => (some none, .closedEmpty)

/-- Source `workflow.Block`, restricted to the fields the executor reads and
writes. -/
structure BlockW where
  preChecks : Option Checks
  contChecks : Option Checks
  postChecks : Option Checks
  sequences : List Sequence
  concurrency : Nat
  toleratedFailures : Int
  status : Status
deriving DecidableEq, Repr

/-- Per-block handle of the executor (`sm.block`): the wrapped block, the
cont-check cancel function (`none` models a nil `context.CancelFunc`), and
the cont-check result channel. -/
structure BlockHandle where
  block : BlockW
  contCancel : Option Unit
  contCheckResult : ChanState
deriving DecidableEq, Repr

/-- The handle construction of `States.Start`:
`block{block: b, contCheckResult: make(chan error, 1)}` — the cancel
function is left nil and the fresh channel has no writer. -/
def mkBlockHandle (b : BlockW) : BlockHandle :=
  { block := b, contCancel := none, contCheckResult := ChanState.openEmpty }

/-- The `req.Next` targets of the executor states; `halt` models returning
with no next state set (the machine stops and the finalizer takes over). -/
inductive NextState where
  | planPreChecks
  | planStartContChecks
  | executeBlock
  | blockPreChecks
  | blockStartContChecks
  | executeSequences
  | blockPostChecks
  | blockEnd
  | planPostChecks
  | halt
deriving DecidableEq, Repr

/-- Source `States.BlockPreChecks`: the source guards the whole `runPreChecks` call
on `h.block.ContChecks != nil`, so with a nil `ContChecks` nothing runs at
all — even when `PreChecks` is non-nil (claim C3); on a check failure the
block is marked Failed and the machine stops. -/
def BlockPreChecks (reg : Registry) (h : BlockHandle) :
    Outcome (BlockHandle × NextState) :=
  match h.block.contChecks with
  | none => .ok (h, NextState.blockStartContChecks)
  | some _ =>
      Outcome.bind (runPreChecks reg h.block.preChecks h.block.contChecks)
        (fun r =>
          match r with
          | (pre, cont, _, some _) =>
              .ok ({ h with block :=
                       { h.block with preChecks := pre, contChecks := cont,
                                      status := Status.Failed } },
                   NextState.halt)
          | (pre, cont, _, none) =>
              .ok ({ h with block :=
                       { h.block with preChecks := pre, contChecks := cont } },
                   NextState.blockStartContChecks))

/-- Source `States.BlockStartContChecks`: only when the block has ContChecks does
it create a cancelable context, store the cancel function on the handle, and
spawn `runContChecks` feeding the channel of the handle (the effect of the supervisor
is reflected in the channel state at the later reads); with nil ContChecks
the handle is untouched — in particular `contCancel` stays nil. -/
def BlockStartContChecks (h : BlockHandle) : BlockHandle × NextState :=
  match h.block.contChecks with
  | some _ => ({ h with contCancel := some () }, NextState.executeSequences)
  | none => (h, NextState.executeSequences)

/-- Source `States.BlockEnd`: calls `h.contCancel()` unconditionally — a nil cancel
function is a nil-function-call panic — then blocks on
`<-h.contCheckResult`; a nil result marks the block Completed, an error
marks it Failed, in either case solely from the received value.  (The block
is then popped and the machine moves to `ExecuteBlock`.) -/
def BlockEnd (h : BlockHandle) : Outcome (BlockHandle × NextState) :=
  match h.contCancel with
  | none => .panic .nilFunctionCall
  | some _ =>
      match chanRecv h.contCheckResult with
      | none => .deadlock
      | some (v, ch) =>
          match v with
          | none =>
              .ok ({ h with
                       block := { h.block with status := Status.Completed },
                       contCheckResult := ch },
                   NextState.executeBlock)
          | some _ =>
              .ok ({ h with
                       block := { h.block with status := Status.Failed },
                       contCheckResult := ch },
                   NextState.executeBlock)

/-- The ContChecks-cancel prefix of `States.BlockPostChecks`: when the block
has ContChecks it calls the stored cancel (nil ⇒ panic) and blocks on the
final channel result; an error marks the block Failed and the state returns
early (the `Bool` is `false`). -/
def blockPostContPhase (h : BlockHandle) : Outcome (BlockHandle × Bool) :=
  match h.block.contChecks with
  | none => .ok (h, true)
  | some _ =>
      match h.contCancel with
      | none => .panic .nilFunctionCall
      | some _ =>
          match chanRecv h.contCheckResult with
          | none => .deadlock
          | some (v, ch) =>
              match v with
              | none => .ok ({ h with contCheckResult := ch }, true)
              | some _ =>
                  .ok ({ h with
                           contCheckResult := ch,
                           block := { h.block with status := Status.Failed } },
                       false)

/-- Source `States.BlockPostChecks`: after the cont-check phase it reads
`h.block.PostChecks.Actions` with **no nil guard** — a nil `PostChecks`
(an optional field) is a nil-pointer dereference (claim C10); a post-check
failure marks the block Failed and stops, success moves to `BlockEnd`. -/
def BlockPostChecks (reg : Registry) (h : BlockHandle) :
    Outcome (BlockHandle × NextState) :=
  Outcome.bind (blockPostContPhase h) (fun hb =>
    match hb with
    | (h, false) => .ok (h, NextState.halt)
    | (h, true) =>
        match h.block.postChecks with
        | none => .panic .nilPointerDeref
        | some pc =>
            Outcome.bind (runChecks reg pc.actions) (fun r =>
              match r with
              | (acts, some _) =>
                  .ok ({ h with block :=
                           { h.block with
                               postChecks := some { pc with actions := acts },
                               status := Status.Failed } },
                       NextState.halt)
              | (acts, none) =>
                  .ok ({ h with block :=
                           { h.block with
                               postChecks := some { pc with actions := acts } } },
                       NextState.blockEnd)))

/-- Source `workflow.Plan`, restricted to the fields the executor reads and
writes. -/
structure PlanW where
  preChecks : Option Checks
  contChecks : Option Checks
  postChecks : Option Checks
  blocks : List BlockW
  status : Status
  reason : FailureReason
deriving DecidableEq, Repr

/-- The plan-level slice of `sm.Data`: the plan, the plan-level cont-check
cancel function and result channel. -/
structure DataW where
  plan : PlanW
  contCancel : Option Unit
  contCheckResult : ChanState
deriving DecidableEq, Repr

/-- The post-check run of `States.PlanPostChecks`: reads
`req.Data.Plan.PostChecks.Actions` with **no nil guard** — a nil
`PostChecks` is a nil-pointer dereference (claim C10).  Errors and success
both end the machine (`PlanPostChecks` sets no next state). -/
def planPostRun (reg : Registry) (d : DataW) : Outcome (DataW × NextState) :=
  match d.plan.postChecks with
  | none => .panic .nilPointerDeref
  | some pc =>
      Outcome.bind (runChecks reg pc.actions) (fun r =>
        .ok ({ d with plan :=
                 { d.plan with postChecks := some { pc with actions := r.1 } } },
             NextState.halt))

/-- Source `States.PlanPostChecks`: when the plan has ContChecks, cancel the
plan-level supervisor and block on its final result (an error returns
early); then run the post-checks of the plan. -/
def PlanPostChecks (reg : Registry) (d : DataW) : Outcome (DataW × NextState) :=
  match d.plan.contChecks with
  | none => planPostRun reg d
  | some _ =>
      match d.contCancel with
      | none => .panic .nilFunctionCall
      | some _ =>
          match chanRecv d.contCheckResult with
          | none => .deadlock
          | some (v, ch) =>
              match v with
              | some _ => .ok ({ d with contCheckResult := ch }, NextState.halt)
              | none => planPostRun reg { d with contCheckResult := ch }

/-! ### `States.ExecuteSequences` -/

/-- One non-blocking poll of `Data.contChecks` while a block is executing:
a `select` over the plan-level and head-block channels with a `default` arm.
Among simultaneously ready cases Go picks randomly; the model prefers the
plan channel.  The value is the `err` the caller tests against nil (`none`
both when nothing was ready and when a ready channel yielded a nil error). -/
def pollContChecks (planCh blockCh : ChanState) :
    Option GoErr × ChanState × ChanState :=
  match chanTryRecv planCh with
  | (some v, planCh') => (v, planCh', blockCh)
  | (none, planCh') =>
      match chanTryRecv blockCh with
      | (some v, blockCh') => (v, planCh', blockCh')
      | (none, blockCh') => (none, planCh', blockCh')

/-- The evolving state of the submission loop of `ExecuteSequences`:
sequences already submitted (and, at Concurrency = 1, completed), the
failure counter, and the two cont-check channels. -/
structure ExecSeqState where
  doneSeqs : List Sequence
  failures : Nat
  planCh : ChanState
  blockCh : ChanState
deriving DecidableEq, Repr

/-- The submission loop of `States.ExecuteSequences`, scheduled for
`Concurrency = 1`: `pool.Submit` on the single-worker pool admits a sequence
only when the worker is idle, so every submitted sequence runs to completion
before the next admission checks (any other interleaving only delays when a
failure becomes visible to the checks).  Before each submission the loop
stops if `ToleratedFailures >= 0 && failures > ToleratedFailures` or if a
cont-check poll yields an error (`true` = stopped early, block marked
Failed, remaining sequences unsubmitted). -/
def executeSequencesLoop (reg : Registry) (tolerated : Int)
    (st : ExecSeqState) :
    List Sequence → Outcome (ExecSeqState × List Sequence × Bool)
  | [] => .ok (st, [], false)
  | s :: rest =>
      if tolerated ≥ 0 ∧ (st.failures : Int) > tolerated then
        .ok (st, s :: rest, true)
      else
        match pollContChecks st.planCh st.blockCh with
        | (some _, planCh, blockCh) =>
            .ok ({ st with planCh := planCh, blockCh := blockCh },
                 s :: rest, true)
        | (none, planCh, blockCh) =>
            Outcome.bind (execSeq reg s) (fun r =>
              executeSequencesLoop reg tolerated
                { doneSeqs := st.doneSeqs ++ [r.1],
                  failures := st.failures + (if r.2.isSome then 1 else 0),
                  planCh := planCh, blockCh := blockCh } rest)

/-- Source `States.ExecuteSequences` (Concurrency = 1 schedule): runs the
submission loop; stopping early marks the block Failed and ends the machine,
otherwise the next state is `BlockPostChecks`.  Note there is **no**
tolerated-failures check after the last submission (claim C4). -/
def ExecuteSequences (reg : Registry) (h : BlockHandle) (planCh : ChanState) :
    Outcome ((BlockHandle × ChanState) × NextState) :=
  Outcome.bind
    (executeSequencesLoop reg h.block.toleratedFailures
      { doneSeqs := [], failures := 0, planCh := planCh,
        blockCh := h.contCheckResult }
      h.block.sequences)
    (fun r =>
      match r with
      | (st, remaining, stoppedEarly) =>
          .ok (({ h with
                    contCheckResult := st.blockCh,
                    block := { h.block with
                                 sequences := st.doneSeqs ++ remaining,
                                 status := if stoppedEarly then Status.Failed
                                           else h.block.status } },
                 st.planCh),
               if stoppedEarly then NextState.halt
               else NextState.blockPostChecks))

/-- Number of plugin invocations recorded on an action. -/
def Action.invocations (a : Action) : Nat := a.attempts.length

/-- Number of plugin invocations recorded on a sequence. -/
def Sequence.invocations (s : Sequence) : Nat :=
  (s.actions.map Action.invocations).sum

/-- Number of plugin invocations recorded on the sequences of a block. -/
def BlockW.invocations (b : BlockW) : Nat :=
  (b.sequences.map Sequence.invocations).sum

/-! ## Supporting definitions for the claims -/

/-- Modelled from the spec: `Run(ctx, plan) → error` lives in package
`internal/execute`, which is not under src/ (only the sm package it drives
is).  Spec §6: "the error reflects only invariant violations (a normal
Failed plan returns nil from Run — failure is carried in Plan.State and
FailureReason)".  Run drives the finalizer machine over the executed plan
tree and surfaces the machine error only when it is an invariant violation,
i.e. wraps `ErrInternalFailure`. -/
def Run (p : FinalPlan) : FinalPlan × Option GoErr :=
  match finalRun p with
  | (p, some e) => if e.wrapsInternal then (p, some e) else (p, none)
  | (p, none) => (p, none)

/-- A check slot that reached a terminal state in the normal course of
execution: absent, Completed, or Failed. -/
def checkNormal (o : Option Status) : Prop :=
  o = none ∨ o = some Status.Completed ∨ o = some Status.Failed

/-- A check slot that does not fail the plan: absent or Completed. -/
def checkPassed (o : Option Status) : Prop :=
  o = none ∨ o = some Status.Completed

instance (o : Option Status) : Decidable (checkNormal o) := by
  unfold checkNormal; infer_instance

instance (o : Option Status) : Decidable (checkPassed o) := by
  unfold checkPassed; infer_instance

/-- Test vector for C1: a plan tree that failed in the normal way — both
present checks Completed, the second block Failed. -/
def c1Plan : FinalPlan :=
  { preChecks := some Status.Completed, contChecks := none,
    postChecks := some Status.Completed,
    blockStatuses := [Status.Completed, Status.Failed],
    planStatus := Status.Running, reason := FailureReason.FRUnknown }

/-- Test vector for C2: a block handle whose block was marked Failed earlier
and whose cont-check result channel yields a nil error at `BlockEnd` (the
supervisor was canceled and closed the channel without sending). -/
def c2Handle : BlockHandle :=
  { block :=
      { preChecks := none, contChecks := some { actions := [] },
        postChecks := none, sequences := [], concurrency := 1,
        toleratedFailures := 0, status := Status.Failed },
    contCancel := some (), contCheckResult := ChanState.closedEmpty }

/-- A check plugin that always succeeds with its declared response type. -/
def okPlugin : PluginM :=
  { name := "okcheck",
    exec := fun _ _ => (GoVal.mk "okcheck.Resp", none),
    response := GoVal.mk "okcheck.Resp" }

/-- Registry for the C3 test vector. -/
def c3Reg : Registry := { plugins := [okPlugin] }

/-- Test vector for C3: a healthy pre-check action. -/
def c3PreAction : Action :=
  { name := "precheck", pluginName := "okcheck",
    req := GoVal.mk "okcheck.Req", retries := 0, attempts := [],
    status := Status.NotStarted }

/-- Test vector for C3: a block with non-nil PreChecks and nil ContChecks. -/
def c3Block : BlockW :=
  { preChecks := some { actions := [c3PreAction] }, contChecks := none,
    postChecks := none, sequences := [], concurrency := 1,
    toleratedFailures := 0, status := Status.Running }

/-- Handle for the C3 test vector. -/
def c3Handle : BlockHandle := mkBlockHandle c3Block

/-- A worker plugin that fails when the request asks for failure and
succeeds otherwise. -/
def seqPlugin : PluginM :=
  { name := "seqwork",
    exec := fun req _ =>
      if req = GoVal.mk "seqwork.Fail" then (GoVal.nil, some { msg := "error" })
      else (GoVal.mk "seqwork.Resp", none),
    response := GoVal.mk "seqwork.Resp" }

/-- Registry for the C4 test vector. -/
def c4Reg : Registry := { plugins := [seqPlugin] }

/-- Test vector for C4: an action whose single attempt fails. -/
def failAction : Action :=
  { name := "work", pluginName := "seqwork", req := GoVal.mk "seqwork.Fail",
    retries := 0, attempts := [], status := Status.NotStarted }

/-- Test vector for C4: an action whose single attempt succeeds. -/
def okAction : Action :=
  { name := "work", pluginName := "seqwork", req := GoVal.mk "seqwork.Ok",
    retries := 0, attempts := [], status := Status.NotStarted }

/-- Test vector for C4: a one-action sequence that fails. -/
def failSeq : Sequence := { actions := [failAction], status := Status.NotStarted }

/-- Test vector for C4: a one-action sequence that succeeds. -/
def okSeq : Sequence := { actions := [okAction], status := Status.NotStarted }

/-- Test vector for C4: ToleratedFailures = 1, Concurrency = 1, sequences
[fail, success, fail]. -/
def c4Block : BlockW :=
  { preChecks := none, contChecks := none, postChecks := none,
    sequences := [failSeq, okSeq, failSeq], concurrency := 1,
    toleratedFailures := 1, status := Status.Running }

/-- Handle for the C4 test vector. -/
def c4Handle : BlockHandle := mkBlockHandle c4Block

/-- A plugin that returns, with a nil error, a response whose dynamic type
differs from its declared response prototype. -/
def wrongTypePlugin : PluginM :=
  { name := "wrongtype",
    exec := fun _ _ => (GoVal.mk "wrongtype.Bad", none),
    response := GoVal.mk "wrongtype.Resp" }

/-- Registry for the C5 test vector. -/
def c5Reg : Registry := { plugins := [wrongTypePlugin] }

/-- Test vector for C5: a fresh action with a generous remaining retry
budget. -/
def c5Action : Action :=
  { name := "act", pluginName := "wrongtype", req := GoVal.mk "wrongtype.Req",
    retries := 3, attempts := [], status := Status.NotStarted }

/-- The permanent error the C5 run records: the message prints `<nil>` where
the returned dynamic type was intended, because the source clears
`attempt.Resp` before formatting it with `%T`. -/
def c5Err : GoErr :=
  { msg := "plugin(wrongtype) returned a type <nil> but expected " ++
           "wrongtype.Resp: " ++ permanentErrMsg,
    wrapsPermanent := true }

/-- Expected handle after `BlockEnd` on the C2 vector: the earlier Failed
status is overwritten with Completed. -/
def c2HandleAfter : BlockHandle :=
  { c2Handle with
      block := { c2Handle.block with status := Status.Completed } }

/-- What the C3 pre-check action would look like had it been run: Completed
with one successful attempt. -/
def c3RanAction : Action :=
  { c3PreAction with
      status := Status.Completed,
      attempts := [{ resp := GoVal.mk "okcheck.Resp", err := none }] }

/-- The C4 failing action after its run: one failed attempt, Failed. -/
def c4FailActionDone : Action :=
  { failAction with
      status := Status.Failed,
      attempts := [{ resp := GoVal.nil, err := some { msg := "error" } }] }

/-- The C4 succeeding action after its run: one successful attempt,
Completed. -/
def c4OkActionDone : Action :=
  { okAction with
      status := Status.Completed,
      attempts := [{ resp := GoVal.mk "seqwork.Resp", err := none }] }

/-- The C4 failing sequence after its run. -/
def c4FailSeqDone : Sequence :=
  { actions := [c4FailActionDone], status := Status.Failed }

/-- The C4 succeeding sequence after its run. -/
def c4OkSeqDone : Sequence :=
  { actions := [c4OkActionDone], status := Status.Completed }

/-- Expected handle after `ExecuteSequences` on the C4 vector: all three
sequences were submitted and ran, and the block status is untouched. -/
def c4HandleAfter : BlockHandle :=
  { c4Handle with
      block := { c4Block with
                   sequences := [c4FailSeqDone, c4OkSeqDone, c4FailSeqDone] } }

/-- Expected action state after the C5 run: exactly one recorded attempt
carrying the permanent type-mismatch error, status Failed. -/
def c5After : Action :=
  { c5Action with
      status := Status.Failed,
      attempts := [{ resp := GoVal.nil, err := some c5Err }] }

/-- A plugin whose every attempt fails with a transient error (for the C6
witness). -/
def c6Plugin : PluginM :=
  { name := "flaky",
    exec := fun _ _ => (GoVal.nil, some { msg := "transient" }),
    response := GoVal.nil }

/-- Test vector for C6: a fresh action with two retries. -/
def c6Action : Action :=
  { name := "a", pluginName := "flaky", req := GoVal.nil, retries := 2,
    attempts := [], status := Status.NotStarted }

/-- Test vector for C7: plan-level PreChecks Completed, ContChecks Failed. -/
def c7Plan : FinalPlan :=
  { preChecks := some Status.Completed, contChecks := some Status.Failed,
    postChecks := none, blockStatuses := [Status.Completed],
    planStatus := Status.Running, reason := FailureReason.FRUnknown }

/-- Test vector for C9: a block with nil ContChecks. -/
def c9Block : BlockW :=
  { preChecks := none, contChecks := none, postChecks := none,
    sequences := [], concurrency := 1, toleratedFailures := 0,
    status := Status.Running }

/-- Test vector for C10: a block handle with nil PostChecks (and nil
ContChecks, so the post-check phase is reached). -/
def c10Handle : BlockHandle :=
  { block :=
      { preChecks := none, contChecks := none, postChecks := none,
        sequences := [], concurrency := 1, toleratedFailures := 0,
        status := Status.Running },
    contCancel := none, contCheckResult := ChanState.openEmpty }

/-- Test vector for C10: plan-level data with nil PostChecks and nil
ContChecks. -/
def c10Data : DataW :=
  { plan :=
      { preChecks := none, contChecks := none, postChecks := none,
        blocks := [], status := Status.Running,
        reason := FailureReason.FRUnknown },
    contCancel := none, contCheckResult := ChanState.openEmpty }

/-- An empty plugin registry (enough for steps that run no action). -/
def emptyReg : Registry := { plugins := [] }

/-- An empty checks node (for the C8 witness). -/
def emptyChecks : Checks := { actions := [] }

/-! ## Helper lemmas -/

theorem examineOne_reason (t : String) (r r' : FailureReason) (st : Status)
    (e : GoErr) (h : examineOne t r st = some (r', e)) : r' = r := by
  cases st <;> simp_all [examineOne]

theorem examineChecksLoop_mem :
    ∀ (items : List (String × FailureReason × Option Status))
      (r : FailureReason) (e : GoErr),
      examineChecksLoop items = (r, some e) → ∃ x ∈ items, x.2.1 = r := by
  intro items
  induction items with
  | nil => intro r e h; simp [examineChecksLoop] at h
  | cons x rest ih =>
      intro r e h
      rcases x with ⟨t, r0, o⟩
      rcases o with _ | st
      · obtain ⟨y, hy, hr⟩ := ih r e (by simpa [examineChecksLoop] using h)
        exact ⟨y, List.mem_cons_of_mem _ hy, hr⟩
      · rcases hE : examineOne t r0 st with _ | ⟨r1, e1⟩
        · simp only [examineChecksLoop, hE] at h
          obtain ⟨y, hy, hr⟩ := ih r e h
          exact ⟨y, List.mem_cons_of_mem _ hy, hr⟩
        · simp only [examineChecksLoop, hE] at h
          obtain ⟨hr, -⟩ := Prod.mk.injEq .. ▸ h
          exact ⟨(t, r0, some st), List.mem_cons_self _ _,
                 by rw [← hr, examineOne_reason t r0 r1 st e1 hE]⟩

theorem examineChecks_passed (pre cont post : Option Status)
    (h1 : checkPassed pre) (h2 : checkPassed cont) (h3 : checkPassed post) :
    examineChecks pre cont post = (FailureReason.FRUnknown, none) := by
  rcases h1 with h1 | h1 <;> rcases h2 with h2 | h2 <;>
    rcases h3 with h3 | h3 <;> subst h1 <;> subst h2 <;> subst h3 <;> rfl

theorem examineChecks_normal (pre cont post : Option Status)
    (h1 : checkNormal pre) (h2 : checkNormal cont) (h3 : checkNormal post) :
    (∃ r, examineChecks pre cont post = (r, none)) ∨
    (∃ r e, examineChecks pre cont post = (r, some e) ∧
            e.wrapsInternal = false) := by
  rcases h1 with h1 | h1 | h1 <;> rcases h2 with h2 | h2 | h2 <;>
    rcases h3 with h3 | h3 | h3 <;> subst h1 <;> subst h2 <;> subst h3 <;>
    first
      | exact Or.inl ⟨_, rfl⟩
      | exact Or.inr ⟨_, _, rfl, rfl⟩

theorem finalBlocksLoop_allCompleted (p : FinalPlan) :
    ∀ l : List Status, (∀ s ∈ l, s = Status.Completed) →
      finalBlocksLoop p l = (p, none, true) := by
  intro l
  induction l with
  | nil => intro _; rfl
  | cons s rest ih =>
      intro h
      have hs := h s (List.mem_cons_self s rest)
      subst hs
      simpa only [finalBlocksLoop] using
        ih (fun x hx => h x (List.mem_cons_of_mem _ hx))

theorem finalBlocksLoop_failed (p : FinalPlan) :
    ∀ l : List Status, (∀ s ∈ l, s = Status.Completed ∨ s = Status.Failed) →
      Status.Failed ∈ l →
      finalBlocksLoop p l =
        ({ p with planStatus := Status.Failed,
                  reason := FailureReason.FRBlock },
         some { msg := "block failure" }, false) := by
  intro l
  induction l with
  | nil => intro _ hm; simp at hm
  | cons s rest ih =>
      intro h hm
      rcases h s (List.mem_cons_self s rest) with hs | hs <;> subst hs
      · have hm' : Status.Failed ∈ rest := by
          rcases List.mem_cons.mp hm with h' | h'
          · exact absurd h'.symm (by simp)
          · exact h'
        simpa only [finalBlocksLoop] using
          ih (fun x hx => h x (List.mem_cons_of_mem _ hx)) hm'
      · rfl

theorem finalBlocksLoop_dichotomy (p : FinalPlan) :
    ∀ l : List Status,
      finalBlocksLoop p l = (p, none, true) ∨
      ∃ e, finalBlocksLoop p l =
        ({ p with planStatus := Status.Failed,
                  reason := FailureReason.FRBlock },
         some e, false) := by
  intro l
  induction l with
  | nil => exact Or.inl rfl
  | cons s rest ih =>
      cases s
      case Completed => simpa only [finalBlocksLoop] using ih
      all_goals exact Or.inr ⟨_, rfl⟩

theorem runActionLoop_length_le (p : PluginM) (a : Action) :
    (runActionLoop p a).1.attempts.length ≤
      max a.attempts.length (a.retries.toNat + 1) := by
  induction a using runActionLoop.induct p with
  | case1 a hguard =>
      rw [runActionLoop, if_pos hguard]
      exact le_max_left _ _
  | case2 a hguard hnone =>
      rw [runActionLoop, if_neg hguard]
      simp only [hnone, List.length_append, List.length_cons, List.length_nil]
      omega
  | case3 a hguard e hsome hperm =>
      rw [runActionLoop, if_neg hguard]
      simp only [hsome]
      rw [if_pos hperm]
      simp only [List.length_append, List.length_cons, List.length_nil]
      omega
  | case4 a hguard e hsome hperm ih =>
      rw [runActionLoop, if_neg hguard]
      simp only [hsome]
      rw [if_neg hperm]
      refine le_trans ih ?_
      simp only [List.length_append, List.length_cons, List.length_nil]
      omega

/-! ## Claim theorems -/

/-- C2, counterexample: a block previously marked Failed whose cont-check
result channel yields a nil error at `BlockEnd` is set to Completed — the
nil read does replace the earlier Failed status, contrary to the claim that
a nil read never replaces Failed with Completed. -/
theorem c2_blockEnd_masks_failed :
    c2Handle.block.status = Status.Failed ∧
    BlockEnd c2Handle = Outcome.ok (c2HandleAfter, NextState.executeBlock) ∧
    c2HandleAfter.block.status = Status.Completed := by
  refine ⟨rfl, ?_, rfl⟩
  simp [BlockEnd, c2Handle, c2HandleAfter, chanRecv]

/-- C2, amended: `BlockEnd` computes the block status solely from the value
received on the cont-check result channel — Completed on a nil read, Failed
on an error — regardless of any previously recorded status (in particular a
previously set Failed would be overwritten by Completed on a nil read). -/
theorem c2_blockEnd_status_from_channel (h : BlockHandle) (u : Unit)
    (hc : h.contCancel = some u) :
    (h.contCheckResult = ChanState.closedEmpty →
       BlockEnd h =
         Outcome.ok
           ({ h with
                block := { h.block with status := Status.Completed },
                contCheckResult := ChanState.closedEmpty },
            NextState.executeBlock)) ∧
    (∀ e, h.contCheckResult = ChanState.pending e →
       BlockEnd h =
         Outcome.ok
           ({ h with
                block := { h.block with status := Status.Failed },
                contCheckResult := ChanState.closedEmpty },
            NextState.executeBlock)) := by
  constructor
  · intro hr
    simp [BlockEnd, hc, hr, chanRecv]
  · intro e hr
    simp [BlockEnd, hc, hr, chanRecv]

/-- C2, witness for the amended theorem at a concrete handle. -/
theorem c2_blockEnd_status_from_channel_witness :
    BlockEnd c2Handle =
      Outcome.ok
        ({ c2Handle with
             block := { c2Handle.block with status := Status.Completed },
             contCheckResult := ChanState.closedEmpty },
         NextState.executeBlock) :=
  (c2_blockEnd_status_from_channel c2Handle () rfl).1 rfl

/-- C3, code evaluation at the failing input: for a block with non-nil
PreChecks and nil ContChecks, `BlockPreChecks` returns the handle untouched
and moves on — the pre-check action is never run (status still NotStarted,
no attempts) — even though `runPreChecks`, had it been called, would have
run it to Completed with one attempt.  The guard on `ContChecks != nil`
skips the pre-checks, contradicting the claim (and the doc comment of
`BlockPreChecks`). -/
theorem c3_preChecks_skipped_eval :
    BlockPreChecks c3Reg c3Handle =
      Outcome.ok (c3Handle, NextState.blockStartContChecks) ∧
    c3Block.preChecks = some { actions := [c3PreAction] } ∧
    c3Block.contChecks = none ∧
    c3PreAction.status = Status.NotStarted ∧
    c3PreAction.attempts = [] ∧
    runPreChecks c3Reg c3Block.preChecks c3Block.contChecks =
      Outcome.ok (some { actions := [c3RanAction] }, none, false, none) ∧
    c3RanAction.status = Status.Completed ∧
    c3RanAction.attempts.length = 1 := by
  refine ⟨rfl, rfl, rfl, rfl, rfl, ?_, rfl, rfl⟩
  simp [runPreChecks, runPreChecks.runChecksOpt, runChecks, runChecksLoop,
        runAction, runActionLoop, runAttempt, Registry.find, c3Reg, okPlugin,
        c3PreAction, c3RanAction, c3Block, isType, reflectTypeOf,
        Outcome.bind, List.find?]

/-- C5, code evaluation at the failing input: a plugin returning (with nil
error) a response of dynamic type `wrongtype.Bad` where the prototype is
`wrongtype.Resp` makes `runAction` record exactly one attempt carrying a
permanent error and fail the action despite `retries = 3` — but the message
reads "returned a type <nil>", naming the already-cleared `attempt.Resp`
instead of the offending type `wrongtype.Bad`, because the source nils the
response before formatting it with `%T`. -/
theorem c5_wrong_type_permanent_eval :
    runAction c5Reg c5Action = Outcome.ok (c5After, some c5Err) ∧
    c5After.status = Status.Failed ∧
    c5After.attempts.length = 1 ∧
    c5Action.retries = 3 ∧
    c5Err.wrapsPermanent = true ∧
    c5Err.msg =
      "plugin(wrongtype) returned a type <nil> but expected wrongtype.Resp: permanent error" := by
  refine ⟨?_, rfl, rfl, rfl, rfl, rfl⟩
  simp [runAction, Registry.find, c5Reg, c5Action, wrongTypePlugin,
        runActionLoop, runAttempt, isType, reflectTypeOf, fmtT, c5Err,
        c5After, permanentErrMsg, List.find?]

/-- C9: for every block with nil ContChecks, the handle built by `Start`
and passed through `BlockStartContChecks` still has a nil cont-check cancel
function, so `BlockEnd` calls a nil function and panics; and even with the
cancel artificially set, `BlockEnd` would block forever on the result
channel that no supervisor ever feeds or closes. -/
theorem c9_blockEnd_nil_cancel (b : BlockW) (hb : b.contChecks = none) :
    (BlockStartContChecks (mkBlockHandle b)).1.contCancel = none ∧
    BlockEnd (BlockStartContChecks (mkBlockHandle b)).1 =
      Outcome.panic PanicKind.nilFunctionCall ∧
    BlockEnd
        { (BlockStartContChecks (mkBlockHandle b)).1 with
            contCancel := some () } =
      Outcome.deadlock := by
  refine ⟨?_, ?_, ?_⟩ <;>
    simp [BlockStartContChecks, mkBlockHandle, hb, BlockEnd, chanRecv]

/-- C9, witness at a concrete ContChecks-free block. -/
theorem c9_blockEnd_nil_cancel_witness :
    BlockEnd (BlockStartContChecks (mkBlockHandle c9Block)).1 =
      Outcome.panic PanicKind.nilFunctionCall :=
  (c9_blockEnd_nil_cancel c9Block rfl).2.1

/-- C10: `BlockPostChecks` and `PlanPostChecks` access `PostChecks.Actions`
with no nil guard, so whenever the optional PostChecks field is nil and the
post-check part of the state is reached (nil ContChecks, or ContChecks
whose final read yields a nil error), the step is a nil-pointer dereference
instead of skipping the post-checks. -/
theorem c10_postChecks_nil_deref :
    (∀ (reg : Registry) (h : BlockHandle),
       h.block.postChecks = none → h.block.contChecks = none →
       BlockPostChecks reg h = Outcome.panic PanicKind.nilPointerDeref) ∧
    (∀ (reg : Registry) (h : BlockHandle) (u : Unit),
       h.block.postChecks = none → h.contCancel = some u →
       h.contCheckResult = ChanState.closedEmpty →
       BlockPostChecks reg h = Outcome.panic PanicKind.nilPointerDeref) ∧
    (∀ (reg : Registry) (d : DataW),
       d.plan.postChecks = none → d.plan.contChecks = none →
       PlanPostChecks reg d = Outcome.panic PanicKind.nilPointerDeref) ∧
    (∀ (reg : Registry) (d : DataW) (u : Unit),
       d.plan.postChecks = none → d.contCancel = some u →
       d.contCheckResult = ChanState.closedEmpty →
       PlanPostChecks reg d = Outcome.panic PanicKind.nilPointerDeref) := by
  refine ⟨?_, ?_, ?_, ?_⟩
  · intro reg h hpost hcont
    simp [BlockPostChecks, blockPostContPhase, hcont, hpost, Outcome.bind]
  · intro reg h u hpost hcanc hch
    rcases hcont : h.block.contChecks with _ | c
    · simp [BlockPostChecks, blockPostContPhase, hcont, hpost, Outcome.bind]
    · simp [BlockPostChecks, blockPostContPhase, hcont, hcanc, hch, hpost,
            chanRecv, Outcome.bind]
  · intro reg d hpost hcont
    simp [PlanPostChecks, hcont, planPostRun, hpost]
  · intro reg d u hpost hcanc hch
    rcases hcont : d.plan.contChecks with _ | c
    · simp [PlanPostChecks, hcont, planPostRun, hpost]
    · simp [PlanPostChecks, hcont, hcanc, hch, chanRecv, planPostRun, hpost]

/-- C10, witness at a concrete nil-PostChecks block handle and plan. -/
theorem c10_postChecks_nil_deref_witness :
    BlockPostChecks emptyReg c10Handle =
      Outcome.panic PanicKind.nilPointerDeref ∧
    PlanPostChecks emptyReg c10Data =
      Outcome.panic PanicKind.nilPointerDeref :=
  ⟨c10_postChecks_nil_deref.1 emptyReg c10Handle rfl rfl,
   c10_postChecks_nil_deref.2.2.1 emptyReg c10Data rfl rfl⟩

/-- C6: the retry loop of `runAction` never exceeds the retry budget — if
the recorded attempts start within the bound `Retries + 1` they stay within
it at the end (and, since the loop only ever appends one attempt per
non-guarded pass, at every intermediate state); once
`len(Attempts) > Retries` the loop returns a permanent stop immediately,
with the action untouched and no plugin call; and a `runAction` run on a
fresh action (empty Attempts, as validation guarantees) ends with
`len(Attempts) ≤ Retries + 1`. -/
theorem c6_attempts_bounded :
    (∀ (p : PluginM) (a : Action),
       a.attempts.length ≤ a.retries.toNat + 1 →
       (runActionLoop p a).1.attempts.length ≤ a.retries.toNat + 1) ∧
    (∀ (p : PluginM) (a : Action),
       (a.attempts.length : Int) > a.retries →
       runActionLoop p a = (a, some errPermanent)) ∧
    (∀ (reg : Registry) (a : Action) (out : Action × Option GoErr),
       runAction reg a = Outcome.ok out → a.attempts = [] →
       out.1.attempts.length ≤ a.retries.toNat + 1) := by
  refine ⟨?_, ?_, ?_⟩
  · intro p a h
    exact le_trans (runActionLoop_length_le p a) (max_le h le_rfl)
  · intro p a h
    rw [runActionLoop, if_pos h]
  · intro reg a out hrun hempty
    unfold runAction at hrun
    rcases hfind : reg.find a.pluginName with _ | p <;>
      simp only [hfind] at hrun
    · simp at hrun
    · rcases hloop : runActionLoop p { a with status := Status.Running }
        with ⟨a1, err⟩
      have hb := runActionLoop_length_le p { a with status := Status.Running }
      rw [hloop] at hb
      simp only [hempty, List.length_nil] at hb
      rcases err with _ | e <;>
        simp only [hloop, Outcome.ok.injEq] at hrun <;>
        rw [← hrun] <;> simpa using hb

/-- C6, witness: a fresh two-retry action against an always-failing plugin
stays within the bound. -/
theorem c6_attempts_bounded_witness :
    c6Action.attempts.length ≤ c6Action.retries.toNat + 1 ∧
    (runActionLoop c6Plugin c6Action).1.attempts.length ≤
      c6Action.retries.toNat + 1 :=
  ⟨by simp [c6Action],
   c6_attempts_bounded.1 c6Plugin c6Action (by simp [c6Action])⟩

/-- C8: every terminating run of `runContChecks` closes the result channel
exactly once and publishes at most one value on it; the tick-free run (the
context canceled before any tick fired) closes without sending anything;
and on the first tick whose checks return a non-nil error the supervisor
sends exactly that error and returns. -/
theorem c8_contChecks_single_send_single_close :
    (∀ (checks : Checks) (ticks : List Registry)
       (out : Checks × List GoErr × Nat),
       runContChecks checks ticks = Outcome.ok out →
       out.2.2 = 1 ∧ out.2.1.length ≤ 1) ∧
    (∀ checks : Checks,
       runContChecks checks [] = Outcome.ok (checks, [], 1)) ∧
    (∀ (checks : Checks) (reg : Registry) (rest : List Registry)
       (acts : List Action) (e : GoErr),
       runChecks reg (resetActions checks.actions) =
         Outcome.ok (acts, some e) →
       runContChecks checks (reg :: rest) =
         Outcome.ok ({ checks with actions := acts }, [e], 1)) := by
  refine ⟨?_, fun checks => rfl, ?_⟩
  · intro checks ticks
    induction ticks generalizing checks with
    | nil =>
        intro out h
        simp only [runContChecks, Outcome.ok.injEq] at h
        rw [← h]
        simp
    | cons reg rest ih =>
        intro out h
        simp only [runContChecks] at h
        rcases hrc : runChecks reg (resetActions checks.actions)
          with ⟨acts, err⟩ | k | _ <;> rw [hrc] at h
        · rcases err with _ | e
          · exact ih _ out (by simpa [Outcome.bind] using h)
          · simp only [Outcome.bind, Outcome.ok.injEq] at h
            rw [← h]
            simp
        · simp [Outcome.bind] at h
        · simp [Outcome.bind] at h
  · intro checks reg rest acts e h
    simp [runContChecks, h, Outcome.bind]

/-- C8, witness at the empty tick list. -/
theorem c8_contChecks_single_send_single_close_witness :
    ((emptyChecks, ([] : List GoErr), (1 : Nat)).2.2 = 1 ∧
     (emptyChecks, ([] : List GoErr), (1 : Nat)).2.1.length ≤ 1) :=
  c8_contChecks_single_send_single_close.1 emptyChecks [] _ rfl

/-- C4, code evaluation at the scenario input (ToleratedFailures = 1,
Concurrency = 1, sequences [fail, success, fail]): all three sequences are
submitted (exactly 3 recorded plugin invocations), but the block does NOT
end Failed — the tolerated-failures check runs only before each new
submission, so the failure count of 2 reached after the last sequence is
never examined and the machine proceeds to `BlockPostChecks` with the block
status untouched (the repository test for this scenario expects Failed). -/
theorem c4_tolerated_failures_no_final_check :
    ExecuteSequences c4Reg c4Handle ChanState.openEmpty =
      Outcome.ok ((c4HandleAfter, ChanState.openEmpty),
                  NextState.blockPostChecks) ∧
    c4Block.toleratedFailures = 1 ∧
    c4Block.concurrency = 1 ∧
    c4HandleAfter.block.status = Status.Running ∧
    BlockW.invocations c4HandleAfter.block = 3 := by
  refine ⟨?_, rfl, rfl, rfl, rfl⟩
  simp [ExecuteSequences, executeSequencesLoop, pollContChecks, chanTryRecv,
        execSeq, execSeqLoop, runAction, runActionLoop, runAttempt,
        Registry.find, isType, reflectTypeOf, Outcome.bind, c4Reg, seqPlugin,
        c4Handle, c4Block, mkBlockHandle, failSeq, okSeq, failAction,
        okAction, c4HandleAfter, c4FailSeqDone, c4OkSeqDone, c4FailActionDone,
        c4OkActionDone, errPermanent, permanentErrMsg, List.find?]

/-- C1 (with `Run` modelled from the spec, see its doc): a non-nil error
from `Run` always wraps `ErrInternalFailure`; for a plan whose checks and
blocks are all in normal terminal states (Completed/Failed, nil allowed for
checks) `Run` returns nil; a Failed block (with passing checks) is recorded
as plan status Failed with reason `FRBlock` and nil error; a Failed
plan-level check is recorded with the matching reason and nil error. -/
theorem c1_run_error_only_invariant_violations :
    (∀ (q : FinalPlan) (e : GoErr), (Run q).2 = some e →
       e.wrapsInternal = true) ∧
    (∀ p : FinalPlan,
       checkNormal p.preChecks → checkNormal p.contChecks →
       checkNormal p.postChecks →
       (∀ s ∈ p.blockStatuses, s = Status.Completed ∨ s = Status.Failed) →
       (Run p).2 = none) ∧
    (∀ p : FinalPlan,
       checkPassed p.preChecks → checkPassed p.contChecks →
       checkPassed p.postChecks →
       (∀ s ∈ p.blockStatuses, s = Status.Completed ∨ s = Status.Failed) →
       Status.Failed ∈ p.blockStatuses →
       (Run p).1.planStatus = Status.Failed ∧
       (Run p).1.reason = FailureReason.FRBlock ∧ (Run p).2 = none) ∧
    (∀ p : FinalPlan, p.preChecks = some Status.Failed →
       (Run p).1.planStatus = Status.Failed ∧
       (Run p).1.reason = FailureReason.FRPreCheck ∧ (Run p).2 = none) ∧
    (∀ p : FinalPlan, checkPassed p.preChecks →
       p.contChecks = some Status.Failed →
       (Run p).1.planStatus = Status.Failed ∧
       (Run p).1.reason = FailureReason.FRContCheck ∧ (Run p).2 = none) ∧
    (∀ p : FinalPlan, checkPassed p.preChecks → checkPassed p.contChecks →
       p.postChecks = some Status.Failed →
       (Run p).1.planStatus = Status.Failed ∧
       (Run p).1.reason = FailureReason.FRPostCheck ∧ (Run p).2 = none) := by
  refine ⟨?_, ?_, ?_, ?_, ?_, ?_⟩
  · intro q e h
    unfold Run at h
    rcases hf : finalRun q with ⟨p1, err⟩
    rw [hf] at h
    rcases err with _ | e1
    · simp at h
    · by_cases hi : e1.wrapsInternal = true
      · simp [hi] at h
        simp_all
      · simp [hi] at h
  · intro p h1 h2 h3 hb
    rcases examineChecks_normal p.preChecks p.contChecks p.postChecks
        h1 h2 h3 with ⟨r, hE⟩ | ⟨r, e, hE, hInt⟩
    · by_cases hmem : Status.Failed ∈ p.blockStatuses
      · simp [Run, finalRun, finalPlanChecks, finalBlocks, hE,
              finalBlocksLoop_failed p _ hb hmem]
      · have hall : ∀ s ∈ p.blockStatuses, s = Status.Completed :=
          fun s hs => (hb s hs).resolve_right (fun hf => hmem (hf ▸ hs))
        simp [Run, finalRun, finalPlanChecks, finalBlocks, hE,
              finalBlocksLoop_allCompleted p _ hall, finalEnd]
    · simp [Run, finalRun, finalPlanChecks, hE, hInt]
  · intro p h1 h2 h3 hb hmem
    simp [Run, finalRun, finalPlanChecks, finalBlocks,
          examineChecks_passed _ _ _ h1 h2 h3,
          finalBlocksLoop_failed p _ hb hmem]
  · intro p hpre
    simp [Run, finalRun, finalPlanChecks, examineChecks, examineChecksLoop,
          examineOne, hpre]
  · intro p h1 hcont
    rcases h1 with he | he <;>
      simp [Run, finalRun, finalPlanChecks, examineChecks, examineChecksLoop,
            examineOne, he, hcont]
  · intro p h1 h2 hpost
    rcases h1 with he | he <;> rcases h2 with he2 | he2 <;>
      simp [Run, finalRun, finalPlanChecks, examineChecks, examineChecksLoop,
            examineOne, he, he2, hpost]

/-- C1, witness: the block-failure clause at a concrete normally-failed
plan. -/
theorem c1_run_error_only_invariant_violations_witness :
    (Run c1Plan).1.planStatus = Status.Failed ∧
    (Run c1Plan).1.reason = FailureReason.FRBlock ∧
    (Run c1Plan).2 = none :=
  c1_run_error_only_invariant_violations.2.2.1 c1Plan (by decide) (by decide)
    (by decide) (by decide) (by decide)

/-- C7: the finalizer examines the plan checks in the order PreChecks,
ContChecks, PostChecks (skipping nil) — the first non-Completed one fails
the plan with the matching reason, and a status that is neither Completed
nor Failed additionally carries an `ErrInternalFailure`-wrapping error; if
every check and every block is Completed the plan ends Completed with
reason `FRUnknown` and no error; and (given the reason starts at
`FRUnknown`, as `Plan.defaults` guarantees and the executor never changes)
the final status is Completed iff the final reason is `FRUnknown`. -/
theorem c7_finalizer_reasons (p : FinalPlan)
    (h0 : p.reason = FailureReason.FRUnknown) :
    (∀ s, p.preChecks = some s → s ≠ Status.Completed →
       (finalRun p).1.planStatus = Status.Failed ∧
       (finalRun p).1.reason = FailureReason.FRPreCheck ∧
       (s ≠ Status.Failed →
         ∃ e, (finalRun p).2 = some e ∧ e.wrapsInternal = true)) ∧
    (checkPassed p.preChecks →
       ∀ s, p.contChecks = some s → s ≠ Status.Completed →
       (finalRun p).1.planStatus = Status.Failed ∧
       (finalRun p).1.reason = FailureReason.FRContCheck ∧
       (s ≠ Status.Failed →
         ∃ e, (finalRun p).2 = some e ∧ e.wrapsInternal = true)) ∧
    (checkPassed p.preChecks → checkPassed p.contChecks →
       ∀ s, p.postChecks = some s → s ≠ Status.Completed →
       (finalRun p).1.planStatus = Status.Failed ∧
       (finalRun p).1.reason = FailureReason.FRPostCheck ∧
       (s ≠ Status.Failed →
         ∃ e, (finalRun p).2 = some e ∧ e.wrapsInternal = true)) ∧
    (checkPassed p.preChecks → checkPassed p.contChecks →
     checkPassed p.postChecks →
     (∀ s ∈ p.blockStatuses, s = Status.Completed) →
       (finalRun p).1.planStatus = Status.Completed ∧
       (finalRun p).1.reason = FailureReason.FRUnknown ∧
       (finalRun p).2 = none) ∧
    ((finalRun p).1.planStatus = Status.Completed ↔
       (finalRun p).1.reason = FailureReason.FRUnknown) := by
  refine ⟨?_, ?_, ?_, ?_, ?_⟩
  · intro s hs hnc
    cases s <;>
      simp_all [finalRun, finalPlanChecks, examineChecks, examineChecksLoop,
                examineOne]
  · intro h1 s hs hnc
    rcases h1 with he | he <;> cases s <;>
      simp_all [finalRun, finalPlanChecks, examineChecks, examineChecksLoop,
                examineOne]
  · intro h1 h2 s hs hnc
    rcases h1 with he | he <;> rcases h2 with he2 | he2 <;> cases s <;>
      simp_all [finalRun, finalPlanChecks, examineChecks, examineChecksLoop,
                examineOne]
  · intro h1 h2 h3 hb
    simp [finalRun, finalPlanChecks, finalBlocks,
          examineChecks_passed _ _ _ h1 h2 h3,
          finalBlocksLoop_allCompleted p _ hb, finalEnd, h0]
  · rcases hE : examineChecks p.preChecks p.contChecks p.postChecks
      with ⟨r, err⟩
    rcases err with _ | e
    · rcases finalBlocksLoop_dichotomy p p.blockStatuses with hB | ⟨e, hB⟩
      · simp [finalRun, finalPlanChecks, finalBlocks, hE, hB, finalEnd, h0]
      · simp [finalRun, finalPlanChecks, finalBlocks, hE, hB]
    · have hr : r ≠ FailureReason.FRUnknown := by
        obtain ⟨x, hx, hxr⟩ :=
          examineChecksLoop_mem _ r e (by simpa [examineChecks] using hE)
        intro habs
        rw [habs] at hxr
        simp at hx
        rcases hx with rfl | rfl | rfl <;> simp at hxr
      simp [finalRun, finalPlanChecks, hE, hr]

/-- C7, witness: a failed plan-level ContCheck (PreChecks Completed) at a
concrete plan. -/
theorem c7_finalizer_reasons_witness :
    (finalRun c7Plan).1.planStatus = Status.Failed ∧
    (finalRun c7Plan).1.reason = FailureReason.FRContCheck :=
  ⟨((c7_finalizer_reasons c7Plan rfl).2.1 (by decide) Status.Failed rfl
      (by decide)).1,
   ((c7_finalizer_reasons c7Plan rfl).2.1 (by decide) Status.Failed rfl
      (by decide)).2.1⟩

end Workstream
